import Mathlib

/-!
Verification of the metric-extraction, comparison and reconciliation engine of
the analyse-amplitude-dashboard repository.

The embedding follows the Python source:
* `src/amplitude_data_handler.py` — `AmplitudeDataHandler.extract_platform_metrics`
  (lines 70–155) and the per-platform year-over-year comparison inside
  `AmplitudeDataHandler.calculate_platform_yoy_comparison` (lines 157–189);
* `src/acquisition_reconciliation.py` — `AcquisitionReconciler.__init__`
  (channel mapping table, lines 27–46), `_perform_reconciliation`
  (lines 80–143) and the channel-discrepancy part of `_generate_insights`
  (lines 160–179).

Modelling conventions:
* Python numbers (ints and floats) are modelled as rationals `ℚ`; `round(x, 1)`
  is modelled as exact round-half-to-even at one decimal place.
* Python strings are modelled as `String` / `List Char`; `str.split`,
  `str.strip`, substring membership and `float()` on plain decimal literals are
  re-implemented structurally below so that they compute.  `float()` is
  modelled on optionally signed plain decimal literals (the only numeric form
  occurring in the chart payload cells); exponent/infinity forms are omitted.
* Python dicts are modelled as association lists in insertion order;
  `dict.get(k, d)` is `dgetD`, `d[k] = v` with a membership test is `dincr` /
  `dput`.  A Python `set` union is modelled as a duplicate-free key list
  (`unionKeys`); the claims proved below do not depend on set iteration order.
* Code that catches an exception and substitutes `0`/`None` is modelled with
  `Option` and `getD`, so every embedded function is total exactly the way the
  Python code never lets an exception escape.
-/

/- ### Character-list string primitives -/

/-- Prefix test on character lists (`list 1` is a prefix of `list 2`). -/
def leadsWith : List Char → List Char → Bool
  | [], _ => true
  | _ :: _, [] => false
  | a :: as, b :: bs => a = b && leadsWith as bs

/-- Substring containment: Python `needle in hay`. -/
def occursIn (needle hay : List Char) : Bool :=
  leadsWith needle hay ||
    match hay with
    | [] => false
    | _ :: t => occursIn needle t

/-- Split on the two-character separator CR LF: Python `s.split('\r\n')`.
`acc` holds the current field in reverse. -/
def splitCRLF (acc : List Char) : List Char → List (List Char)
  | [] => [acc.reverse]
  | '\r' :: '\n' :: rest => acc.reverse :: splitCRLF [] rest
  | c :: rest => splitCRLF (c :: acc) rest

/-- Split on a single-character separator: Python `s.split(',')`. -/
def splitChar (sep : Char) (acc : List Char) : List Char → List (List Char)
  | [] => [acc.reverse]
  | c :: rest =>
      if c = sep then acc.reverse :: splitChar sep [] rest
      else splitChar sep (c :: acc) rest

/-- Python `s.strip()`: drop whitespace from both ends. -/
def trimChars (l : List Char) : List Char :=
  ((l.dropWhile Char.isWhitespace).reverse.dropWhile Char.isWhitespace).reverse

/-- Python `s.strip('"')`: drop double quotes from both ends. -/
def stripQuotes (l : List Char) : List Char :=
  ((l.dropWhile (· = '"')).reverse.dropWhile (· = '"')).reverse

/-- Python `s.replace(c, '')` for a single character `c`. -/
def removeChar (c : Char) (l : List Char) : List Char := l.filter (· != c)

/-- Cell cleaning in `extract_platform_metrics` (line 129/137):
`cell.strip('"').replace('%', '').replace(',', '')`. -/
def cleanCell (l : List Char) : List Char :=
  removeChar ',' (removeChar '%' (stripQuotes l))

/-- Numeric value of a digit string. -/
def digitsVal (ds : List Char) : ℕ :=
  ds.foldl (fun acc c => 10 * acc + (c.toNat - 48)) 0

/-- Sign of an optionally signed literal. -/
def signOf (t : List Char) : ℚ :=
  match t with
  | '-' :: _ => -1
  | _ => 1

/-- Drop a leading sign character. -/
def dropSign (t : List Char) : List Char :=
  match t with
  | '-' :: r => r
  | '+' :: r => r
  | r => r

/-- Python `float(s)` on plain decimal literals (optional surrounding
whitespace, optional sign, digits with at most one decimal point); `none`
models a raised `ValueError`. -/
def pyFloat? (cell : List Char) : Option ℚ :=
  let t := trimChars cell
  let sign := signOf t
  let u := dropSign t
  let ipart := u.takeWhile Char.isDigit
  let rest := u.dropWhile Char.isDigit
  match rest with
  | [] => if ipart.isEmpty then none else some (sign * (digitsVal ipart : ℚ))
  | '.' :: fpart =>
      if fpart.all Char.isDigit && !(ipart.isEmpty && fpart.isEmpty) then
        some (sign * ((digitsVal ipart : ℚ) + (digitsVal fpart : ℚ) / 10 ^ fpart.length))
      else none
  | _ => none

/- ### Tabular metric extractor (`extract_platform_metrics`, lines 70–155) -/

/-- Fallback of lines 133–143: scan the row's cells from the last column
backwards (skipping column 0, the platform label), and take the first cell
whose cleaned text is non-empty and parses as a number; `0` if none does.
A cell that fails to parse is skipped (`except ValueError: continue`). -/
def fallbackValue (cells : List (List Char)) : ℚ :=
  ((cells.drop 1).reverse.findSome? (fun c =>
    let vs := cleanCell c
    if vs.isEmpty then none else pyFloat? vs)).getD 0

/-- Line 128: `if target_date_column and target_date_column < len(row_data)`.
Python truthiness makes both `None` and column `0` fall through to the
fallback branch. -/
def chosenCol (td : Option ℕ) (n : ℕ) : Option ℕ :=
  match td with
  | some i => if i ≠ 0 ∧ i < n then some i else none
  | none => none

/-- Value extraction for one platform row (lines 124–148).  In the
target-column branch an empty cleaned cell gives `0`
(`float(value_str) if value_str else 0`) and a failed parse raises
`ValueError`, caught at line 146 and turned into `0` — hence `getD 0`. -/
def rowValue (row : List Char) (td : Option ℕ) : ℚ :=
  let cells := splitChar ',' [] row
  match chosenCol td cells.length with
  | some i =>
      let vs := cleanCell (cells.getD i [])
      if vs.isEmpty then 0 else (pyFloat? vs).getD 0
  | none => fallbackValue cells

/-- The `platform_data` dict of lines 108–115: one optional matched row per
platform. -/
structure PlatformRows where
  apps : Option (List Char)
  web : Option (List Char)
  combined : Option (List Char)
deriving DecidableEq, Repr

/-- Line 110: `'Apps Only' in line or '"\tApp"' in line`. -/
def lineApps (l : List Char) : Bool :=
  occursIn "Apps Only".data l || occursIn "\"\tApp\"".data l

/-- Line 112: `'Web Only' in line or '"\tWeb"' in line`. -/
def lineWeb (l : List Char) : Bool :=
  occursIn "Web Only".data l || occursIn "\"\tWeb\"".data l

/-- Line 114: `'App + Web' in line`. -/
def lineCombined (l : List Char) : Bool := occursIn "App + Web".data l

/-- Lines 108–115: scan all lines; each matching line overwrites the dict
entry for its platform (`platform_data['apps'] = line`), and the `elif` chain
lets a line be claimed by at most one platform. -/
def scanPlatforms (lines : List (List Char)) : PlatformRows :=
  lines.foldl (fun acc line =>
    if lineApps line then { acc with apps := some line }
    else if lineWeb line then { acc with web := some line }
    else if lineCombined line then { acc with combined := some line }
    else acc) ⟨none, none, none⟩

/-- The early-return value `{'apps': 0, 'web': 0, 'combined': 0}`. -/
def zerosDict : List (String × ℚ) := [("apps", 0), ("web", 0), ("combined", 0)]

/-- The `result` dict of lines 122–153: one entry per matched platform, then
the loop at lines 150–153 adds `0` for every missing platform.  (The Python
dict's insertion order may differ from the fixed apps/web/combined order used
here; the key–value content is identical.) -/
def buildDict (pd : PlatformRows) (td : Option ℕ) : List (String × ℚ) :=
  let base :=
    (match pd.apps with | some r => [("apps", rowValue r td)] | none => []) ++
    (match pd.web with | some r => [("web", rowValue r td)] | none => []) ++
    (match pd.combined with | some r => [("combined", rowValue r td)] | none => [])
  base ++ ((["apps", "web", "combined"].filter
    (fun k => !((base.map Prod.fst).contains k))).map (fun k => (k, (0 : ℚ))))

/-- Embedding of `AmplitudeDataHandler.extract_platform_metrics` (lines 70–155).
`targetWeekStart` stands for the precomputed string
`datetime.fromisocalendar(year, target_week, 1).strftime('%Y-%m-%d')` of
line 99 — the deterministic date formatting is not itself modelled.  The
header row is the first line containing `'T00:00:00'` (lines 84–87) and the
target column the first header cell containing the target week start
(lines 101–105); if either search fails the column is `None`. -/
def extract_platform_metrics (csv_data : String) (targetWeekStart : String) :
    List (String × ℚ) :=
  if csv_data.data.isEmpty then zerosDict
  else
    let lines := splitCRLF [] (trimChars csv_data.data)
    if lines.length < 4 then zerosDict
    else
      let headerRow := lines.find? (fun l => occursIn "T00:00:00".data l)
      let td : Option ℕ :=
        match headerRow with
        | some h => (splitChar ',' [] h).findIdx? (fun col => occursIn targetWeekStart.data col)
        | none => none
      let pd := scanPlatforms lines
      if pd.apps = none ∧ pd.web = none ∧ pd.combined = none then zerosDict
      else buildDict pd td

/- ### Association-list dictionaries -/

/-- Python `d.get(k)` on a string-keyed dict. -/
def dget (m : List (String × ℚ)) (k : String) : Option ℚ :=
  (m.find? (fun p => p.1 == k)).map Prod.snd

/-- Python `d.get(k, dflt)`. -/
def dgetD (m : List (String × ℚ)) (k : String) (dflt : ℚ) : ℚ :=
  (dget m k).getD dflt

/-- Python `if k not in d: d[k] = 0` followed by `d[k] += v`: updates the existing
entry in place or appends a new one. -/
def dincr (m : List (String × ℚ)) (k : String) (v : ℚ) : List (String × ℚ) :=
  match m with
  | [] => [(k, v)]
  | (k0, v0) :: rest =>
      if k0 = k then (k0, v0 + v) :: rest else (k0, v0) :: dincr rest k v

/-- Python `d[k] = v` on a string-valued dict: update in place or append. -/
def dput (m : List (String × String)) (k v : String) : List (String × String) :=
  match m with
  | [] => [(k, v)]
  | (k0, v0) :: rest =>
      if k0 = k then (k0, v) :: rest else (k0, v0) :: dput rest k v

/- ### Rate/count comparator (`calculate_platform_yoy_comparison`, lines 157–189) -/

/-- Round half to even (the behaviour of Python `round`), at integer
precision. -/
def roundHalfEven (x : ℚ) : ℤ :=
  if x - ⌊x⌋ < 1 / 2 then ⌊x⌋
  else if 1 / 2 < x - ⌊x⌋ then ⌊x⌋ + 1
  else if ⌊x⌋ % 2 = 0 then ⌊x⌋ else ⌊x⌋ + 1

/-- Python `round(x, 1)`. -/
def pyRound1 (x : ℚ) : ℚ := (roundHalfEven (x * 10) : ℚ) / 10

/-- The per-platform year-over-year delta of lines 169–181: `None` when the
previous value is `0`; otherwise the percentage-point formula
`(current - previous) * 100` for conversion (rate) metrics and the relative
percentage formula `((current - previous) / previous) * 100` for count
metrics, rounded to one decimal place. -/
def calculate_yoy_change (current previous : ℚ) (is_conversion : Bool) : Option ℚ :=
  if previous = 0 then none
  else
    some (pyRound1 (if is_conversion then (current - previous) * 100
                    else (current - previous) / previous * 100))

/- ### Channel taxonomy and reconciliation (`acquisition_reconciliation.py`) -/

/-- The static `channel_mapping` table of lines 28–40. -/
def channel_mapping : List (String × List String) :=
  [("Direct", ["organic", "QR_code", "print"]),
   ("Paid Search", ["googleadwords_int", "google_ads"]),
   ("Organic Search", ["google_organic_seo", "duckduckgo_organic_seo",
                       "yahoo_organic_seo", "bing_organic_seo"]),
   ("Paid Social", ["Facebook Ads", "facebook", "Social_Influencers"]),
   ("Email", ["emarsys", "bloomreach", "transactional_postmark"]),
   ("Affiliates", ["impactradius_int", "impact", "mentionme"]),
   ("Paid Shopping", ["google_shopping"]),
   ("Referral", ["website-thortful", "card-back-thortful"]),
   ("Display", ["display_ads"]),
   ("Unassigned", ["unknown", "other"])]

/-- The `reverse_mapping` dict built by the double loop of lines 43–46. -/
def reverse_mapping : List (String × String) :=
  channel_mapping.foldl (fun acc p => p.2.foldl (fun acc2 s => dput acc2 s p.1) acc) []

/-- Line 111: `self.reverse_mapping.get(source, 'Unmapped')`, generalized over
the reverse table so the normalization theorems quantify over every mapping
table. -/
def revGet (table : List (String × String)) (s : String) : String :=
  ((table.find? (fun p => p.1 == s)).map Prod.snd).getD "Unmapped"

/-- Lines 109–114: accumulate each source's installs into its channel
bucket. -/
def buildByChannel (rev : String → String) (sources : List (String × ℚ)) :
    List (String × ℚ) :=
  sources.foldl (fun acc p => dincr acc (rev p.1) p.2) []

/-- Sum of the values of a dict. -/
def sumVals (m : List (String × ℚ)) : ℚ := (m.map Prod.snd).sum

/-- Line 123: `set(af_by_channel.keys()) | set(ga4.get('by_channel', {}).keys())`,
as a duplicate-free key list (Python set iteration order is unspecified; the
claims below are order-independent). -/
def unionKeys (a b : List (String × ℚ)) : List String :=
  (a.map Prod.fst ++ b.map Prod.fst).dedup

/-- The `appsflyer` input dict of `_perform_reconciliation`: the fields read
at lines 86 and 110 (`total_installs`, `media_sources`); a missing key reads
as `0` / `{}` via `dict.get`. -/
structure AppsFlyerData where
  total_installs : ℚ
  media_sources : List (String × ℚ)
deriving DecidableEq, Repr

/-- The `ga4` input dict: the fields read at lines 87 and 123–127
(`total_new_users`, `by_channel`). -/
structure GA4Data where
  total_new_users : ℚ
  by_channel : List (String × ℚ)
deriving DecidableEq, Repr

/-- The `reconciliation['summary']` dict (lines 85–90 and 100–106). -/
structure SummaryData where
  appsflyer_installs : ℚ
  ga4_new_users : ℚ
  difference : ℚ
  difference_percent : ℚ
deriving DecidableEq, Repr

/-- One `reconciliation['by_channel']` entry (lines 132–137). -/
structure ChannelEntry where
  appsflyer : ℚ
  ga4 : ℚ
  difference : ℚ
  difference_percent : ℚ
deriving DecidableEq, Repr

/-- The structured part of the reconciliation report (lines 83–98): summary,
per-channel comparison and unmapped AppsFlyer sources. -/
structure Reconciliation where
  summary : SummaryData
  by_channel : List (String × ChannelEntry)
  unmapped_appsflyer : List (String × ℚ)
deriving DecidableEq, Repr

/-- Embedding of `AcquisitionReconciler._perform_reconciliation` (lines 80–143), structured
part.  Summary totals are read straight from the inputs (lines 86–87); the
difference is GA4 minus AppsFlyer (line 103) and the percentage is relative to
the AppsFlyer total when it is positive, else `0` (lines 105–106).  AppsFlyer
sources are routed through `reverse_mapping` (lines 109–120, unmapped ones
collected at lines 116–120), and the per-channel table ranges over the union
of channel keys with absent sides read as `0` (lines 122–137). -/
def perform_reconciliation (appsflyer : AppsFlyerData) (ga4 : GA4Data) :
    Reconciliation :=
  let af_total := appsflyer.total_installs
  let ga4_total := ga4.total_new_users
  let diff := ga4_total - af_total
  let summary : SummaryData :=
    { appsflyer_installs := af_total
      ga4_new_users := ga4_total
      difference := diff
      difference_percent := if 0 < af_total then diff / af_total * 100 else 0 }
  let af_by_channel := buildByChannel (revGet reverse_mapping) appsflyer.media_sources
  let unmapped := appsflyer.media_sources.filter
    (fun p => revGet reverse_mapping p.1 == "Unmapped")
  let channels := unionKeys af_by_channel ga4.by_channel
  let by_channel := channels.map (fun c =>
    let a := dgetD af_by_channel c 0
    let b := dgetD ga4.by_channel c 0
    (c, ({ appsflyer := a
           ga4 := b
           difference := b - a
           difference_percent := if 0 < a then (b - a) / a * 100 else 0 } : ChannelEntry)))
  { summary := summary, by_channel := by_channel, unmapped_appsflyer := unmapped }

/-- Sum of the A-side (AppsFlyer) values of the per-channel table. -/
def channelSumA (r : Reconciliation) : ℚ :=
  (r.by_channel.map (fun p => p.2.appsflyer)).sum

/-- Sum of the B-side (GA4) values of the per-channel table. -/
def channelSumB (r : Reconciliation) : ℚ :=
  (r.by_channel.map (fun p => p.2.ga4)).sum

/- ### Channel-discrepancy insights (`_generate_insights`, lines 160–179) -/

/-- Lines 163–164: the channel qualifies for a discrepancy insight when
`appsflyer > 50 or ga4 > 50`, `abs(difference) > 100` and
`abs(difference_percent) > 20` (all strict). -/
def qualifies (d : ChannelEntry) : Bool :=
  (decide (50 < d.appsflyer) || decide (50 < d.ga4)) &&
    (decide (100 < |d.difference|) && decide (20 < |d.difference_percent|))

/-- Insertion step of a sort that is descending in `abs(difference)`. -/
def insertByDiff (x : String × ChannelEntry) :
    List (String × ChannelEntry) → List (String × ChannelEntry)
  | [] => [x]
  | y :: ys =>
      if |y.2.difference| < |x.2.difference| then x :: y :: ys
      else y :: insertByDiff x ys

/-- Line 172, `major_discrepancies.sort(key=lambda x: abs(x['difference']), reverse=True)`,
as an insertion sort. -/
def sortByDiff (l : List (String × ChannelEntry)) : List (String × ChannelEntry) :=
  l.foldr insertByDiff []

/-- Lines 161–174: the channels that receive a discrepancy insight — the
qualifying channels, sorted descending by absolute difference, cut to the top
3 (`major_discrepancies[:3]`); each element yields exactly one insight string
at lines 174–179. -/
def major_discrepancies (by_channel : List (String × ChannelEntry)) :
    List (String × ChannelEntry) :=
  (sortByDiff (by_channel.filter (fun p => qualifies p.2))).take 3

/-- Descending order in absolute difference. -/
def absDiffGE (x y : String × ChannelEntry) : Prop :=
  |y.2.difference| ≤ |x.2.difference|

/- ### Basic dictionary lemmas -/

lemma sumVals_nil : sumVals [] = 0 := rfl

lemma sumVals_cons (p : String × ℚ) (l : List (String × ℚ)) :
    sumVals (p :: l) = p.2 + sumVals l := by
  simp [sumVals]

lemma sumVals_dincr (k : String) (v : ℚ) :
    ∀ m : List (String × ℚ), sumVals (dincr m k v) = sumVals m + v := by
  intro m
  induction m with
  | nil => simp [dincr, sumVals]
  | cons q rest ih =>
      obtain ⟨k0, v0⟩ := q
      by_cases h : k0 = k
      · simp only [dincr, if_pos h, sumVals_cons]
        ring
      · simp only [dincr, if_neg h, sumVals_cons, ih]
        ring

lemma foldl_dincr_sum (rev : String → String) :
    ∀ (sources : List (String × ℚ)) (init : List (String × ℚ)),
      sumVals (sources.foldl (fun acc p => dincr acc (rev p.1) p.2) init) =
        sumVals init + sumVals sources := by
  intro sources
  induction sources with
  | nil => intro init; simp [sumVals]
  | cons p rest ih =>
      intro init
      simp only [List.foldl_cons, ih, sumVals_dincr, sumVals_cons]
      ring

lemma dget_mem_keys (k : String) :
    ∀ m : List (String × ℚ), k ∈ m.map Prod.fst →
      ∃ v, dget m k = some v ∧ (k, v) ∈ m := by
  intro m
  induction m with
  | nil => simp
  | cons q rest ih =>
      obtain ⟨k0, v0⟩ := q
      intro h
      by_cases hk : k0 = k
      · subst hk
        refine ⟨v0, ?_, by simp⟩
        simp [dget]
      · have h' : k ∈ rest.map Prod.fst := by
          rcases List.mem_cons.mp h with h0 | h0
          · exact absurd h0.symm hk
          · exact h0
        obtain ⟨v, hv, hmem⟩ := ih h'
        refine ⟨v, ?_, List.mem_cons_of_mem _ hmem⟩
        have hbeq : (k0 == k) = false := by
          simp [hk]
        simp [dget, List.find?, hbeq]
        simpa [dget] using hv

lemma dget_isSome_of_mem_keys (m : List (String × ℚ)) (k : String)
    (h : k ∈ m.map Prod.fst) : (dget m k).isSome = true := by
  obtain ⟨v, hv, _⟩ := dget_mem_keys k m h
  simp [hv]

/- ### Claim C1 and C2: the rate/count comparator -/

/-- Claim C1: with a non-zero previous value the comparator uses the
percentage-point formula `(current - previous) * 100` for rate metrics and the
relative formula `((current - previous) / previous) * 100` for count metrics,
each rounded to one decimal place; in particular `compare(0.40, 0.30, rate)`
is `10.0` and `compare(40, 30, count)` is `33.3`. -/
theorem c1_rate_count_formulas (current previous : ℚ) (h : previous ≠ 0) :
    calculate_yoy_change current previous true =
        some (pyRound1 ((current - previous) * 100)) ∧
    calculate_yoy_change current previous false =
        some (pyRound1 ((current - previous) / previous * 100)) ∧
    calculate_yoy_change (2/5) (3/10) true = some 10 ∧
    calculate_yoy_change 40 30 false = some (333/10) := by
  refine ⟨by simp [calculate_yoy_change, h], by simp [calculate_yoy_change, h], ?_, ?_⟩
  · norm_num [calculate_yoy_change, pyRound1, roundHalfEven]
  · norm_num [calculate_yoy_change, pyRound1, roundHalfEven]

/-- Witness for C1 at `current = 40`, `previous = 30`. -/
theorem c1_witness :
    (30 : ℚ) ≠ 0 ∧ calculate_yoy_change 40 30 false = some (333/10) :=
  ⟨by norm_num, (c1_rate_count_formulas 40 30 (by norm_num)).2.2.2⟩

/-- Claim C2: for every current value and every rate flag, a previous value of
`0` yields `None` for the year-over-year delta (modelled as `none`; in the
rational model no infinity or NaN exists and no exception is raised). -/
theorem c2_zero_baseline (current : ℚ) (is_conversion : Bool) :
    calculate_yoy_change current 0 is_conversion = none := by
  simp [calculate_yoy_change]

/- ### Claim C6: normalization conserves total volume -/

/-- Claim C6: for every mapping table and every list of raw source totals,
routing each source into its channel bucket (or `Unmapped`) conserves the
total volume, and the per-channel totals are independent of the order the
sources are processed in. -/
theorem c6_normalization_conserves_sum (table : List (String × String))
    (sources : List (String × ℚ)) :
    sumVals (buildByChannel (revGet table) sources) = sumVals sources ∧
    ∀ sources2, sources.Perm sources2 →
      sumVals (buildByChannel (revGet table) sources2) =
        sumVals (buildByChannel (revGet table) sources) := by
  have hmain : ∀ src : List (String × ℚ),
      sumVals (buildByChannel (revGet table) src) = sumVals src := by
    intro src
    simpa [sumVals] using foldl_dincr_sum (revGet table) src []
  refine ⟨hmain sources, fun sources2 hperm => ?_⟩
  rw [hmain sources2, hmain sources]
  simpa [sumVals] using ((hperm.map Prod.snd).sum_eq).symm

/-- Witness for C6: conservation and order-independence at a concrete input. -/
theorem c6_witness :
    sumVals (buildByChannel (revGet []) [(("print" : String), (2 : ℚ)), ("organic", 1)]) =
      sumVals (buildByChannel (revGet []) [(("organic" : String), (1 : ℚ)), ("print", 2)]) :=
  (c6_normalization_conserves_sum [] [("organic", 1), ("print", 2)]).2
    [("print", 2), ("organic", 1)] (List.Perm.swap _ _ _)

/- ### Concrete reconciliation evaluations used by witnesses and counterexamples -/

lemma revGet_organic : revGet reverse_mapping "organic" = "Direct" := by decide

lemma recon_pos_eval :
    perform_reconciliation ⟨3, [("organic", 3)]⟩ ⟨0, []⟩ =
      ⟨⟨3, 0, -3, -100⟩, [("Direct", ⟨3, 0, -3, -100⟩)], []⟩ := by
  simp +decide [perform_reconciliation, buildByChannel, dincr, unionKeys, dgetD, dget,
    revGet_organic]

lemma recon_zero_eval :
    perform_reconciliation ⟨0, [("organic", 0)]⟩ ⟨0, []⟩ =
      ⟨⟨0, 0, 0, 0⟩, [("Direct", ⟨0, 0, 0, 0⟩)], []⟩ := by
  simp +decide [perform_reconciliation, buildByChannel, dincr, unionKeys, dgetD, dget,
    revGet_organic]

/- ### Claim C3: summary totals versus per-channel sums -/

/-- Counterexample to claim C3: the summary totals are the raw input totals,
not the sums of the normalized per-channel maps.  With a reported AppsFlyer
total of `100` but an empty `media_sources` map, the summary A-total is `100`
while the per-channel A-sum is `0`. -/
theorem c3_counterexample :
    (perform_reconciliation ⟨100, []⟩ ⟨50, []⟩).summary.appsflyer_installs ≠
      channelSumA (perform_reconciliation ⟨100, []⟩ ⟨50, []⟩) := by
  have h : perform_reconciliation ⟨100, []⟩ ⟨50, []⟩ = ⟨⟨100, 50, -50, -50⟩, [], []⟩ := by
    simp +decide [perform_reconciliation, buildByChannel, unionKeys, dgetD, dget]
    norm_num
  rw [h]
  norm_num [channelSumA, sumVals]

/-- Claim C3 as amended: in every report the summary totals are read directly
from the inputs' reported raw totals (`total_installs` and `total_new_users`);
they are not recomputed from the normalized per-channel maps. -/
theorem c3_summary_totals_amended (appsflyer : AppsFlyerData) (ga4 : GA4Data) :
    (perform_reconciliation appsflyer ga4).summary.appsflyer_installs =
        appsflyer.total_installs ∧
    (perform_reconciliation appsflyer ga4).summary.ga4_new_users =
        ga4.total_new_users :=
  ⟨rfl, rfl⟩

/- ### Claim C8: sign convention of differences -/

/-- Claim C8: in every report the difference is GA4 (side B) minus AppsFlyer
(side A), with the same convention in the summary and in every per-channel
entry. -/
theorem c8_sign_convention (appsflyer : AppsFlyerData) (ga4 : GA4Data) :
    (perform_reconciliation appsflyer ga4).summary.difference =
        (perform_reconciliation appsflyer ga4).summary.ga4_new_users -
          (perform_reconciliation appsflyer ga4).summary.appsflyer_installs ∧
    ∀ p ∈ (perform_reconciliation appsflyer ga4).by_channel,
      p.2.difference = p.2.ga4 - p.2.appsflyer := by
  refine ⟨rfl, ?_⟩
  intro p hp
  simp only [perform_reconciliation, List.mem_map] at hp
  obtain ⟨c, _, rfl⟩ := hp
  rfl

/-- Witness for C8 at a concrete reconciliation with one channel. -/
theorem c8_witness : (-3 : ℚ) = 0 - 3 :=
  (c8_sign_convention ⟨3, [("organic", 3)]⟩ ⟨0, []⟩).2
    ("Direct", ⟨3, 0, -3, -100⟩) (by rw [recon_pos_eval]; simp)

/- ### Claim C9: non-zero channel totals -/

/-- Counterexample to claim C9: a zero-valued AppsFlyer source creates a
channel entry whose totals are both zero. -/
theorem c9_counterexample :
    ¬ ∀ p ∈ (perform_reconciliation ⟨0, [("organic", 0)]⟩ ⟨0, []⟩).by_channel,
        p.2.appsflyer ≠ 0 ∨ p.2.ga4 ≠ 0 := by
  rw [recon_zero_eval]
  intro h
  have h0 := h ("Direct", ⟨0, 0, 0, 0⟩) (by simp)
  simp at h0

lemma dincr_pos (k : String) (v : ℚ) (hv : 0 < v) :
    ∀ m : List (String × ℚ), (∀ p ∈ m, 0 < p.2) →
      ∀ p ∈ dincr m k v, 0 < p.2 := by
  intro m
  induction m with
  | nil =>
      intro _ p hp
      simp [dincr] at hp
      rw [hp]
      exact hv
  | cons q rest ih =>
      intro hm p hp
      obtain ⟨k0, v0⟩ := q
      have h0 : 0 < v0 := hm (k0, v0) (by simp)
      have hrest : ∀ p ∈ rest, 0 < p.2 := fun p hp => hm p (List.mem_cons_of_mem _ hp)
      by_cases hk : k0 = k
      · simp only [dincr, if_pos hk] at hp
        rcases List.mem_cons.mp hp with hp | hp
        · rw [hp]
          exact add_pos h0 hv
        · exact hrest p hp
      · simp only [dincr, if_neg hk] at hp
        rcases List.mem_cons.mp hp with hp | hp
        · rw [hp]
          exact h0
        · exact ih hrest p hp

lemma buildByChannel_pos_aux (rev : String → String) :
    ∀ (sources init : List (String × ℚ)),
      (∀ p ∈ sources, 0 < p.2) → (∀ p ∈ init, 0 < p.2) →
      ∀ p ∈ sources.foldl (fun acc p => dincr acc (rev p.1) p.2) init, 0 < p.2 := by
  intro sources
  induction sources with
  | nil =>
      intro init _ hinit p hp
      simp only [List.foldl_nil] at hp
      exact hinit p hp
  | cons q rest ih =>
      intro init hs hinit p hp
      simp only [List.foldl_cons] at hp
      have hq : 0 < q.2 := hs q (by simp)
      have hrest : ∀ p ∈ rest, 0 < p.2 := fun p hp => hs p (List.mem_cons_of_mem _ hp)
      exact ih (dincr init (rev q.1) q.2) hrest (dincr_pos (rev q.1) q.2 hq init hinit) p hp

/-- Claim C9 as amended: every channel key of the per-channel table comes from
one of the two input maps, and when every value in the AppsFlyer
`media_sources` map and in the GA4 `by_channel` map is positive, every channel
entry has at least one non-zero platform total.  (The unrestricted claim fails
when an input carries a zero-valued source; see the counterexample.) -/
theorem c9_nonzero_channels_amended (appsflyer : AppsFlyerData) (ga4 : GA4Data)
    (haf : ∀ p ∈ appsflyer.media_sources, 0 < p.2)
    (hga : ∀ p ∈ ga4.by_channel, 0 < p.2) :
    ∀ p ∈ (perform_reconciliation appsflyer ga4).by_channel,
      p.2.appsflyer ≠ 0 ∨ p.2.ga4 ≠ 0 := by
  intro p hp
  simp only [perform_reconciliation, List.mem_map] at hp
  obtain ⟨c, hc, rfl⟩ := hp
  rw [unionKeys, List.mem_dedup, List.mem_append] at hc
  rcases hc with hc | hc
  · left
    obtain ⟨v, hv, hmemv⟩ := dget_mem_keys c _ hc
    have hpos := buildByChannel_pos_aux (revGet reverse_mapping)
      appsflyer.media_sources [] haf (by simp) (c, v) hmemv
    show dgetD (buildByChannel (revGet reverse_mapping) appsflyer.media_sources) c 0 ≠ 0
    rw [dgetD, buildByChannel] at *
    rw [hv]
    exact ne_of_gt hpos
  · right
    obtain ⟨v, hv, hmemv⟩ := dget_mem_keys c _ hc
    have hpos := hga (c, v) hmemv
    show dgetD ga4.by_channel c 0 ≠ 0
    rw [dgetD, hv]
    exact ne_of_gt hpos

/-- Witness for C9 at a concrete reconciliation with positive inputs. -/
theorem c9_witness : (3 : ℚ) ≠ 0 ∨ (0 : ℚ) ≠ 0 :=
  c9_nonzero_channels_amended ⟨3, [("organic", 3)]⟩ ⟨0, []⟩
    (by
      intro p hp
      simp at hp
      rw [hp]
      norm_num)
    (by simp)
    ("Direct", ⟨3, 0, -3, -100⟩) (by rw [recon_pos_eval]; simp)

/- ### Sorting lemmas for the discrepancy insights -/

lemma insertByDiff_perm (x : String × ChannelEntry) :
    ∀ l : List (String × ChannelEntry), (insertByDiff x l).Perm (x :: l) := by
  intro l
  induction l with
  | nil => rfl
  | cons y ys ih =>
      by_cases h : |y.2.difference| < |x.2.difference|
      · simp [insertByDiff, h]
      · simp only [insertByDiff, if_neg h]
        exact (ih.cons y).trans (List.Perm.swap x y ys)

lemma sortByDiff_perm (l : List (String × ChannelEntry)) : (sortByDiff l).Perm l := by
  induction l with
  | nil => rfl
  | cons x xs ih =>
      simp only [sortByDiff, List.foldr_cons]
      exact (insertByDiff_perm x _).trans (ih.cons x)

lemma pairwise_insertByDiff (x : String × ChannelEntry) :
    ∀ l : List (String × ChannelEntry), l.Pairwise absDiffGE →
      (insertByDiff x l).Pairwise absDiffGE := by
  intro l
  induction l with
  | nil => intro _; simp [insertByDiff, absDiffGE]
  | cons y ys ih =>
      intro h
      obtain ⟨hy, hys⟩ := List.pairwise_cons.mp h
      by_cases hlt : |y.2.difference| < |x.2.difference|
      · simp only [insertByDiff, if_pos hlt]
        refine List.pairwise_cons.mpr ⟨?_, h⟩
        intro z hz
        rcases List.mem_cons.mp hz with rfl | hz
        · exact le_of_lt hlt
        · exact le_trans (hy z hz) (le_of_lt hlt)
      · simp only [insertByDiff, if_neg hlt]
        refine List.pairwise_cons.mpr ⟨?_, ih hys⟩
        intro z hz
        rcases List.mem_cons.mp ((insertByDiff_perm x ys).mem_iff.mp hz) with rfl | hz2
        · exact le_of_not_lt hlt
        · exact hy z hz2

lemma pairwise_sortByDiff (l : List (String × ChannelEntry)) :
    (sortByDiff l).Pairwise absDiffGE := by
  induction l with
  | nil => simp [sortByDiff]
  | cons x xs ih =>
      simp only [sortByDiff, List.foldr_cons]
      exact pairwise_insertByDiff x _ ih

/- ### Claim C7: channel-discrepancy insights -/

/-- Claim C7: discrepancy insights are emitted exactly for the top 3 channels
by absolute difference among those passing the three strict thresholds
`max(a, b) > 50`, `|difference| > 100`, `|differencePercent| > 20`; the
emitted list is sorted descending by absolute difference, any qualifying
channel left out is dominated by every emitted one, and a channel sitting
exactly on a boundary is never emitted. -/
theorem c7_channel_discrepancy_insights (byc : List (String × ChannelEntry)) :
    (∀ p ∈ major_discrepancies byc,
        p ∈ byc ∧ (50 < p.2.appsflyer ∨ 50 < p.2.ga4) ∧
          100 < |p.2.difference| ∧ 20 < |p.2.difference_percent|) ∧
    (major_discrepancies byc).Pairwise absDiffGE ∧
    (major_discrepancies byc).length = min 3 (byc.filter (fun p => qualifies p.2)).length ∧
    (∀ p ∈ byc, qualifies p.2 = true → p ∉ major_discrepancies byc →
        ∀ q ∈ major_discrepancies byc, |p.2.difference| ≤ |q.2.difference|) ∧
    (∀ p ∈ byc, |p.2.difference| = 100 ∨ |p.2.difference_percent| = 20 →
        p ∉ major_discrepancies byc) := by
  have hperm := sortByDiff_perm (byc.filter (fun p => qualifies p.2))
  have hpw := pairwise_sortByDiff (byc.filter (fun p => qualifies p.2))
  have hmem : ∀ p ∈ major_discrepancies byc,
      p ∈ byc ∧ qualifies p.2 = true := by
    intro p hp
    have hp1 : p ∈ sortByDiff (byc.filter (fun p => qualifies p.2)) :=
      List.mem_of_mem_take hp
    exact List.mem_filter.mp (hperm.mem_iff.mp hp1)
  have hcond : ∀ p ∈ major_discrepancies byc,
      p ∈ byc ∧ (50 < p.2.appsflyer ∨ 50 < p.2.ga4) ∧
        100 < |p.2.difference| ∧ 20 < |p.2.difference_percent| := by
    intro p hp
    obtain ⟨hin, hq⟩ := hmem p hp
    simp only [qualifies, Bool.and_eq_true, Bool.or_eq_true, decide_eq_true_eq] at hq
    exact ⟨hin, hq.1, hq.2.1, hq.2.2⟩
  refine ⟨hcond, ?_, ?_, ?_, ?_⟩
  · exact hpw.sublist (List.take_sublist 3 _)
  · rw [major_discrepancies, List.length_take, hperm.length_eq]
  · intro p hp hq hnot q hqmem
    have hpfilter : p ∈ byc.filter (fun p => qualifies p.2) :=
      List.mem_filter.mpr ⟨hp, hq⟩
    have hpsort : p ∈ sortByDiff (byc.filter (fun p => qualifies p.2)) :=
      hperm.mem_iff.mpr hpfilter
    have hsplit := List.take_append_drop 3 (sortByDiff (byc.filter (fun p => qualifies p.2)))
    have hdrop : p ∈ (sortByDiff (byc.filter (fun p => qualifies p.2))).drop 3 := by
      rcases (List.mem_append.mp (by rw [hsplit]; exact hpsort)) with h1 | h1
      · exact absurd h1 hnot
      · exact h1
    have hpw2 : ((sortByDiff (byc.filter (fun p => qualifies p.2))).take 3 ++
        (sortByDiff (byc.filter (fun p => qualifies p.2))).drop 3).Pairwise absDiffGE := by
      rw [hsplit]
      exact hpw
    exact (List.pairwise_append.mp hpw2).2.2 q hqmem p hdrop
  · intro p _ hbound hmemmaj
    obtain ⟨_, _, hd, hpct⟩ := hcond p hmemmaj
    rcases hbound with hb | hb
    · rw [hb] at hd
      exact absurd hd (lt_irrefl _)
    · rw [hb] at hpct
      exact absurd hpct (lt_irrefl _)

/-- Witness for C7 at a one-channel table that passes all three thresholds. -/
theorem c7_witness :
    ("Direct", (⟨1000, 700, -300, -30⟩ : ChannelEntry)) ∈
        [(("Direct" : String), (⟨1000, 700, -300, -30⟩ : ChannelEntry))] ∧
      (50 < (1000 : ℚ) ∨ 50 < (700 : ℚ)) ∧
      100 < |(-300 : ℚ)| ∧ 20 < |(-30 : ℚ)| :=
  (c7_channel_discrepancy_insights [("Direct", ⟨1000, 700, -300, -30⟩)]).1
    ("Direct", ⟨1000, 700, -300, -30⟩) (by decide)

/- ### Extractor lemmas -/

lemma dget_buildDict_apps (pd : PlatformRows) (td : Option ℕ) (r : List Char)
    (h : pd.apps = some r) :
    dget (buildDict pd td) "apps" = some (rowValue r td) := by
  simp +decide [buildDict, h, dget]

lemma dget_buildDict_web (pd : PlatformRows) (td : Option ℕ) (r : List Char)
    (h : pd.web = some r) :
    dget (buildDict pd td) "web" = some (rowValue r td) := by
  cases ha : pd.apps <;> simp +decide [buildDict, h, ha, dget]

lemma dget_buildDict_combined (pd : PlatformRows) (td : Option ℕ) (r : List Char)
    (h : pd.combined = some r) :
    dget (buildDict pd td) "combined" = some (rowValue r td) := by
  cases ha : pd.apps <;> cases hw : pd.web <;> simp +decide [buildDict, h, ha, hw, dget]

lemma keys_buildDict (pd : PlatformRows) (td : Option ℕ) :
    ((buildDict pd td).map Prod.fst).Perm ["apps", "web", "combined"] := by
  obtain ⟨oa, ow, oc⟩ := pd
  cases oa <;> cases ow <;> cases oc <;> simp +decide [buildDict]

lemma extract_cases (csv_data targetWeekStart : String) :
    extract_platform_metrics csv_data targetWeekStart = zerosDict ∨
      ∃ pd td, extract_platform_metrics csv_data targetWeekStart = buildDict pd td := by
  rw [extract_platform_metrics]
  split
  · left; rfl
  · dsimp only
    split
    · left; rfl
    · split
      · left; rfl
      · right; exact ⟨_, _, rfl⟩

/- ### Claim C10: total extraction with exactly the three platform keys -/

/-- Claim C10 (implicit): for every payload string and target-week string the
extractor returns a dict whose key set is exactly
`apps`, `web`, `combined` (each bound to a rational value), and — being a
total function in this embedding, with every Python exception path modelled —
it never raises. -/
theorem c10_extract_total_keys (csv_data targetWeekStart : String) :
    ((extract_platform_metrics csv_data targetWeekStart).map Prod.fst).Perm
        ["apps", "web", "combined"] ∧
    ∀ k ∈ (["apps", "web", "combined"] : List String),
      (dget (extract_platform_metrics csv_data targetWeekStart) k).isSome = true := by
  have hkeys : ((extract_platform_metrics csv_data targetWeekStart).map Prod.fst).Perm
      ["apps", "web", "combined"] := by
    rcases extract_cases csv_data targetWeekStart with h | ⟨pd, td, h⟩
    · rw [h]; decide
    · rw [h]; exact keys_buildDict pd td
  refine ⟨hkeys, fun k hk => ?_⟩
  exact dget_isSome_of_mem_keys _ k (hkeys.mem_iff.mpr hk)

/-- Witness for C10 at the empty payload. -/
theorem c10_witness :
    (dget (extract_platform_metrics "" "x") "apps").isSome = true :=
  (c10_extract_total_keys "" "x").2 "apps" (by decide)

/- ### Claim C4: duplicate platform-label lines -/

/-- Counterexample to claim C4: when two lines carry the platform label, the
extractor takes the value from the last matching line (`9`), not from the
first (`7`). -/
theorem c4_counterexample :
    dgetD (extract_platform_metrics "h\r\nx\r\nApps Only,7\r\nApps Only,9"
        "2025-07-14") "apps" 0 = 9 ∧ (9 : ℚ) ≠ 7 := by
  refine ⟨?_, by norm_num⟩
  simp +decide [extract_platform_metrics, splitCRLF, trimChars, splitChar, scanPlatforms,
    occursIn, leadsWith, lineApps, lineWeb, lineCombined, buildDict, rowValue, chosenCol,
    fallbackValue, cleanCell, stripQuotes, removeChar, pyFloat?, digitsVal, signOf,
    dropSign, dgetD, dget, zerosDict]

/-- Claim C4 as amended: when a platform's label substring occurs on more than
one line, each later matching line overwrites the earlier one, so the
extractor uses the **last** matching line for that platform (the `elif` chain
still lets a line be claimed by at most one platform). -/
theorem c4_last_match_wins (lines : List (List Char)) (line : List Char) :
    (lineApps line = true →
      (scanPlatforms (lines ++ [line])).apps = some line) ∧
    (lineApps line = false → lineWeb line = true →
      (scanPlatforms (lines ++ [line])).web = some line) ∧
    (lineApps line = false → lineWeb line = false → lineCombined line = true →
      (scanPlatforms (lines ++ [line])).combined = some line) := by
  refine ⟨?_, ?_, ?_⟩
  · intro h
    simp [scanPlatforms, List.foldl_append, h]
  · intro h1 h2
    simp [scanPlatforms, List.foldl_append, h1, h2]
  · intro h1 h2 h3
    simp [scanPlatforms, List.foldl_append, h1, h2, h3]

/-- Witness for C4: the second of two `Apps Only` lines wins. -/
theorem c4_witness :
    (scanPlatforms (["Apps Only,7".data] ++ ["Apps Only,9".data])).apps =
      some "Apps Only,9".data :=
  (c4_last_match_wins ["Apps Only,7".data] "Apps Only,9".data).1 (by decide)

/- ### Claim C5: payloads without a date-header line -/

/-- Counterexample to claim C5: a payload with no line containing the
timestamp marker does not yield `0` for every platform — the matched
`Apps Only` row falls back to its last parseable cell and yields `5`. -/
theorem c5_counterexample :
    ((splitCRLF [] (trimChars "a\r\nb\r\nApps Only,5\r\nc".data)).all
        (fun l => !occursIn "T00:00:00".data l)) = true ∧
    dgetD (extract_platform_metrics "a\r\nb\r\nApps Only,5\r\nc" "2025-07-14")
        "apps" 0 = 5 ∧
    (5 : ℚ) ≠ 0 := by
  refine ⟨by decide, ?_, by norm_num⟩
  simp +decide [extract_platform_metrics, splitCRLF, trimChars, splitChar, scanPlatforms,
    occursIn, leadsWith, lineApps, lineWeb, lineCombined, buildDict, rowValue, chosenCol,
    fallbackValue, cleanCell, stripQuotes, removeChar, pyFloat?, digitsVal, signOf,
    dropSign, dgetD, dget, zerosDict]

/-- Claim C5 as amended: when no line of a non-trivial payload contains the
timestamp marker, extraction still does not raise, but it does not return
all-zero values: each platform whose label matches some line receives the
fallback value — the rightmost parseable cell of its matched row (skipping the
label column), `0` only if no cell parses — while unmatched platforms receive
`0`. -/
theorem c5_no_header_fallback (csv_data targetWeekStart : String)
    (hne : csv_data.data ≠ [])
    (hlen : ¬ (splitCRLF [] (trimChars csv_data.data)).length < 4)
    (hnomark : ∀ l ∈ splitCRLF [] (trimChars csv_data.data),
        occursIn "T00:00:00".data l = false) :
    (∀ r, (scanPlatforms (splitCRLF [] (trimChars csv_data.data))).apps = some r →
        dgetD (extract_platform_metrics csv_data targetWeekStart) "apps" 0 =
          fallbackValue (splitChar ',' [] r)) ∧
    (∀ r, (scanPlatforms (splitCRLF [] (trimChars csv_data.data))).web = some r →
        dgetD (extract_platform_metrics csv_data targetWeekStart) "web" 0 =
          fallbackValue (splitChar ',' [] r)) ∧
    (∀ r, (scanPlatforms (splitCRLF [] (trimChars csv_data.data))).combined = some r →
        dgetD (extract_platform_metrics csv_data targetWeekStart) "combined" 0 =
          fallbackValue (splitChar ',' [] r)) := by
  have hempty : csv_data.data.isEmpty = false := by
    simp [List.isEmpty_iff, hne]
  have hfind : (splitCRLF [] (trimChars csv_data.data)).find?
      (fun l => occursIn "T00:00:00".data l) = none :=
    List.find?_eq_none.mpr (fun x hx => by simp [hnomark x hx])
  have hmain : ∀ pd : PlatformRows, pd = scanPlatforms (splitCRLF [] (trimChars csv_data.data)) →
      ¬ (pd.apps = none ∧ pd.web = none ∧ pd.combined = none) →
      extract_platform_metrics csv_data targetWeekStart = buildDict pd none := by
    intro pd hpd hnz
    rw [extract_platform_metrics, if_neg (by simp [hempty])]
    dsimp only
    rw [if_neg hlen, hfind]
    dsimp only
    rw [← hpd, if_neg hnz]
  have hrow : ∀ r : List Char, rowValue r none = fallbackValue (splitChar ',' [] r) := by
    intro r
    simp [rowValue, chosenCol]
  refine ⟨?_, ?_, ?_⟩
  · intro r h
    rw [hmain _ rfl (by simp [h]), dgetD,
      dget_buildDict_apps _ none r (by rw [h]), Option.getD_some, hrow]
  · intro r h
    rw [hmain _ rfl (by simp [h]), dgetD,
      dget_buildDict_web _ none r (by rw [h]), Option.getD_some, hrow]
  · intro r h
    rw [hmain _ rfl (by simp [h]), dgetD,
      dget_buildDict_combined _ none r (by rw [h]), Option.getD_some, hrow]

/-- Witness for C5 at a concrete header-less payload. -/
theorem c5_witness :
    dgetD (extract_platform_metrics "a\r\nb\r\nApps Only,5\r\nc" "2025-07-14") "apps" 0 =
      fallbackValue (splitChar ',' [] "Apps Only,5".data) :=
  (c5_no_header_fallback "a\r\nb\r\nApps Only,5\r\nc" "2025-07-14"
    (by decide) (by decide) (by decide)).1 "Apps Only,5".data (by decide)
